import Mathlib

/-!
Verification of the data-model layer of a video-streaming catalog
application.  The source file declares PostgreSQL tables (`sessions`,
`users`, `series`, `episodes`, `watchHistory`, `favorites`), relation
metadata, and insert validators derived from the table declarations
(`createInsertSchema(table).omit({...})` from drizzle-zod).

The embedding models:
 * column declarations (type, NOT NULL, default, UNIQUE/PRIMARY KEY,
   varchar length, numeric precision/scale) exactly as written in the
   source;
 * the derived insert validators: a field is required iff its column is
   NOT NULL and has no default; a nullable column accepts `null`; a
   varchar with a declared length rejects longer strings; numeric
   columns are presented as strings to the validator; unknown and
   omitted keys are stripped, never rejected;
 * the storage layer's enforcement of the declared constraints on
   insert: application of column defaults (including `defaultNow()` and
   `serial` auto-increment), NOT NULL and type checks, numeric
   precision/scale coercion with round-half-away-from-zero, and UNIQUE
   checks with SQL semantics (`NULL` never conflicts with `NULL`).
-/

/-- A runtime value appearing in an insert payload or a stored row.
`num m s` is a stored fixed-point numeric with mantissa `m` and scale
`s` (the represented number is `m / 10^s`); numeric input arrives as a
string and is coerced on storage. -/
inductive Value where
  | str (s : String)
  | int (n : Int)
  | bool (b : Bool)
  | date (t : Int)
  | num (mantissa : Int) (scale : Nat)
  | null
deriving DecidableEq, Repr

/-- An insert payload / stored row: a finite mapping from field name to
value, represented as an association list (first binding wins). -/
abbrev Row := List (String × Value)

/-- The SQL column types used by the schema. `varchar (some L)` is
`varchar(L)`, `varchar none` an unbounded varchar; `decimalCol p s` is
`decimal(p, s)`; `serial` is the auto-increment integer key type. -/
inductive ColType where
  | varchar (len : Option Nat)
  | text
  | integer
  | boolean
  | timestamp
  | decimalCol (precision scale : Nat)
  | serial
  | jsonb
deriving DecidableEq, Repr

/-- A column's declared default: none, a constant value, `defaultNow()`,
or the implicit auto-increment default of a `serial` column. -/
inductive ColDefault where
  | noDefault
  | value (v : Value)
  | now
  | serialAuto
deriving DecidableEq, Repr

/-- One column declaration: name (the TypeScript-side field name), type,
NOT NULL flag, default, UNIQUE flag, PRIMARY KEY flag, and the table a
foreign-key column references (metadata only; not checked at this
layer). -/
structure Column where
  name : String
  colType : ColType
  notNull : Bool
  colDefault : ColDefault
  isUnique : Bool
  isPrimary : Bool
  refTable : Option String
deriving DecidableEq, Repr

/-- Whether a column carries any default (constant, `now`, or serial). -/
def hasDefault (c : Column) : Bool :=
  match c.colDefault with
  | .noDefault => false
  | _ => true

/-- A field is required in an insert payload iff its column is NOT NULL
and has no default (drizzle-zod makes every other field optional). -/
def colRequired (c : Column) : Bool := c.notNull && !(hasDefault c)

/-- Look up a field by name in a payload (first binding wins). -/
def lookupField (p : Row) (k : String) : Option Value :=
  match p with
  | [] => none
  | (k2, v) :: rest => if k2 = k then some v else lookupField rest k

/-! ## Table declarations, transcribed column-by-column from the source. -/

/-- Table `sessions`: session storage for Replit Auth. -/
def sessions : List Column :=
  [⟨"sid", .varchar none, true, .noDefault, false, true, none⟩,
   ⟨"sess", .jsonb, true, .noDefault, false, false, none⟩,
   ⟨"expire", .timestamp, true, .noDefault, false, false, none⟩]

/-- Table `users`: id is an externally issued varchar primary key, email
is declared UNIQUE, subscriptionTier defaults to "free", createdAt and
updatedAt default to now. -/
def users : List Column :=
  [⟨"id", .varchar none, true, .noDefault, false, true, none⟩,
   ⟨"email", .varchar none, false, .noDefault, true, false, none⟩,
   ⟨"firstName", .varchar none, false, .noDefault, false, false, none⟩,
   ⟨"lastName", .varchar none, false, .noDefault, false, false, none⟩,
   ⟨"profileImageUrl", .varchar none, false, .noDefault, false, false, none⟩,
   ⟨"subscriptionTier", .varchar none, false, .value (.str "free"), false, false, none⟩,
   ⟨"createdAt", .timestamp, false, .now, false, false, none⟩,
   ⟨"updatedAt", .timestamp, false, .now, false, false, none⟩]

/-- Table `series`. -/
def series : List Column :=
  [⟨"id", .serial, true, .serialAuto, false, true, none⟩,
   ⟨"title", .varchar (some 255), true, .noDefault, false, false, none⟩,
   ⟨"description", .text, false, .noDefault, false, false, none⟩,
   ⟨"posterUrl", .varchar (some 500), false, .noDefault, false, false, none⟩,
   ⟨"coverUrl", .varchar (some 500), false, .noDefault, false, false, none⟩,
   ⟨"genre", .varchar (some 100), false, .noDefault, false, false, none⟩,
   ⟨"country", .varchar (some 100), false, .noDefault, false, false, none⟩,
   ⟨"language", .varchar (some 50), false, .noDefault, false, false, none⟩,
   ⟨"year", .integer, false, .noDefault, false, false, none⟩,
   ⟨"rating", .decimalCol 3 1, false, .noDefault, false, false, none⟩,
   ⟨"totalEpisodes", .integer, false, .noDefault, false, false, none⟩,
   ⟨"status", .varchar (some 50), false, .value (.str "ongoing"), false, false, none⟩,
   ⟨"subscriptionRequired", .varchar none, false, .value (.str "free"), false, false, none⟩,
   ⟨"isFeatured", .boolean, false, .value (.bool false), false, false, none⟩,
   ⟨"createdAt", .timestamp, false, .now, false, false, none⟩]

/-- Table `episodes`: seriesId is a nullable foreign key into `series`. -/
def episodes : List Column :=
  [⟨"id", .serial, true, .serialAuto, false, true, none⟩,
   ⟨"seriesId", .integer, false, .noDefault, false, false, some "series"⟩,
   ⟨"episodeNumber", .integer, true, .noDefault, false, false, none⟩,
   ⟨"title", .varchar (some 255), true, .noDefault, false, false, none⟩,
   ⟨"description", .text, false, .noDefault, false, false, none⟩,
   ⟨"thumbnailUrl", .varchar (some 500), false, .noDefault, false, false, none⟩,
   ⟨"videoUrl", .varchar (some 500), false, .noDefault, false, false, none⟩,
   ⟨"duration", .integer, false, .noDefault, false, false, none⟩,
   ⟨"subscriptionRequired", .varchar none, false, .value (.str "free"), false, false, none⟩,
   ⟨"releasedAt", .timestamp, false, .now, false, false, none⟩,
   ⟨"createdAt", .timestamp, false, .now, false, false, none⟩]

/-- Table `watch_history`. -/
def watchHistory : List Column :=
  [⟨"id", .serial, true, .serialAuto, false, true, none⟩,
   ⟨"userId", .varchar none, false, .noDefault, false, false, some "users"⟩,
   ⟨"episodeId", .integer, false, .noDefault, false, false, some "episodes"⟩,
   ⟨"seriesId", .integer, false, .noDefault, false, false, some "series"⟩,
   ⟨"watchedAt", .timestamp, false, .now, false, false, none⟩,
   ⟨"progressPercentage", .integer, false, .value (.int 0), false, false, none⟩,
   ⟨"completed", .boolean, false, .value (.bool false), false, false, none⟩]

/-- Table `favorites`: no uniqueness constraint on (userId, seriesId). -/
def favorites : List Column :=
  [⟨"id", .serial, true, .serialAuto, false, true, none⟩,
   ⟨"userId", .varchar none, false, .noDefault, false, false, some "users"⟩,
   ⟨"seriesId", .integer, false, .noDefault, false, false, some "series"⟩,
   ⟨"createdAt", .timestamp, false, .now, false, false, none⟩]

/-! ## Insert validators (drizzle-zod semantics) -/

/-- The reason a field is rejected: missing required field, wrong type
(including `null` for a non-nullable field), or a string over the
declared varchar length. -/
inductive IssueKind where
  | required
  | invalidType
  | tooBig
deriving DecidableEq, Repr

/-- A validation issue: the offending field and the reason. -/
structure Issue where
  field : String
  kind : IssueKind
deriving DecidableEq, Repr

/-- The zod type check a column's value must pass (for non-null values):
varchar and text expect a string (varchar additionally bounded by its
declared length), integer and serial expect an integer, boolean a
boolean, timestamp a date, decimal a string (numerics travel as
strings), jsonb accepts anything. -/
def zodCheck (t : ColType) (v : Value) : Option IssueKind :=
  match t with
  | .varchar len =>
    match v with
    | .str s =>
      match len with
      | some l => if s.length ≤ l then none else some .tooBig
      | none => none
    | _ => some .invalidType
  | .text =>
    match v with
    | .str _ => none
    | _ => some .invalidType
  | .integer =>
    match v with
    | .int _ => none
    | _ => some .invalidType
  | .boolean =>
    match v with
    | .bool _ => none
    | _ => some .invalidType
  | .timestamp =>
    match v with
    | .date _ => none
    | _ => some .invalidType
  | .decimalCol _ _ =>
    match v with
    | .str _ => none
    | _ => some .invalidType
  | .serial =>
    match v with
    | .int _ => none
    | _ => some .invalidType
  | .jsonb => none

/-- The issues a single column contributes on a payload: a missing
required field, a `null` for a NOT NULL column, or a type failure. -/
def fieldIssues (c : Column) (p : Row) : List Issue :=
  match lookupField p c.name with
  | none => if colRequired c then [⟨c.name, .required⟩] else []
  | some v =>
    match v with
    | .null => if c.notNull then [⟨c.name, .invalidType⟩] else []
    | _ =>
      match zodCheck c.colType v with
      | some k => [⟨c.name, k⟩]
      | none => []

/-- All issues a column list raises on a payload. -/
def issuesOf (cols : List Column) (p : Row) : List Issue :=
  match cols with
  | [] => []
  | c :: cs => fieldIssues c p ++ issuesOf cs p

/-- An insert validator: the table's columns and the names excluded by
`.omit({...})`. -/
structure InsertSchema where
  table : List Column
  omitted : List String
deriving DecidableEq, Repr

/-- The validator's shape: the table's columns minus the omitted ones. -/
def shapeOf (s : InsertSchema) : List Column :=
  s.table.filter (fun c => !(s.omitted.any (fun o => o = c.name)))

/-- Run a validator on a payload: collect the per-field issues over the
shape; on success return the normalized record (the present shape
fields, unknown and omitted keys stripped — zod's default strip mode),
on failure the nonempty issue list. -/
def parseInsert (s : InsertSchema) (p : Row) : Except (List Issue) Row :=
  match issuesOf (shapeOf s) p with
  | [] => .ok ((shapeOf s).filterMap (fun c => (lookupField p c.name).map (fun v => (c.name, v))))
  | i :: is => .error (i :: is)

/-- Source: `createInsertSchema(series).omit({id: true, createdAt: true})`. -/
def insertSeriesSchema : InsertSchema := ⟨series, ["id", "createdAt"]⟩

/-- Source: `createInsertSchema(episodes).omit({id: true, createdAt: true})`. -/
def insertEpisodeSchema : InsertSchema := ⟨episodes, ["id", "createdAt"]⟩

/-- Source: `createInsertSchema(watchHistory).omit({id: true, watchedAt: true})`. -/
def insertWatchHistorySchema : InsertSchema := ⟨watchHistory, ["id", "watchedAt"]⟩

/-- Source: `createInsertSchema(favorites).omit({id: true, createdAt: true})`. -/
def insertFavoriteSchema : InsertSchema := ⟨favorites, ["id", "createdAt"]⟩

/-- The required field names of a validator. -/
def requiredFields (s : InsertSchema) : List String :=
  ((shapeOf s).filter colRequired).map (fun c => c.name)

/-! ## Storage layer: defaults, numeric coercion, declared constraints

The schema declarations are consumed by the database, which applies the
declared defaults on insert and enforces the declared column types,
NOT NULL constraints, numeric precision/scale, and UNIQUE constraints
(with SQL semantics: `NULL` never conflicts with `NULL`). -/

/-- Parse the digits of a decimal string into a natural number;
`none` if a non-digit appears. An empty digit list parses to `0`. -/
def digitsToNat (cs : List Char) : Option Nat :=
  cs.foldl
    (fun acc c => acc.bind (fun n => if c.isDigit then some (n * 10 + (c.toNat - 48)) else none))
    (some 0)

/-- Parse a decimal literal `[+|-]digits[.digits]` into a mantissa and
scale: `parseDecimal "12.34" = some (1234, 2)`. At least one digit must
be present. -/
def parseDecimal (s : String) : Option (Int × Nat) :=
  let cs := s.data
  let body := match cs with
    | '-' :: rest => rest
    | '+' :: rest => rest
    | _ => cs
  let sgn : Int := match cs with
    | '-' :: _ => -1
    | _ => 1
  match body.splitOn '.' with
  | [ip] =>
    if ip.isEmpty then none
    else (digitsToNat ip).map (fun n => (sgn * n, 0))
  | [ip, fp] =>
    if ip.isEmpty && fp.isEmpty then none
    else (digitsToNat (ip ++ fp)).map (fun n => (sgn * n, fp.length))
  | _ => none

/-- Integer division rounding half away from zero (PostgreSQL numeric
rounding), for a positive divisor. -/
def divRoundAway (m d : Int) : Int :=
  if 0 ≤ m then (m + d / 2) / d else -((-m + d / 2) / d)

/-- Rescale a mantissa from scale `e` to scale `scale`, rounding half
away from zero when digits are dropped. -/
def rescale (m : Int) (e scale : Nat) : Int :=
  if e ≤ scale then m * ((10 : Int) ^ (scale - e))
  else divRoundAway m ((10 : Int) ^ (e - scale))

/-- Coerce a decimal string into a `decimal(precision, scale)` column:
parse, rescale to `scale`, and reject on overflow (more than
`precision` total digits after rounding). -/
def numericNormalize (precision scale : Nat) (s : String) : Option Int :=
  (parseDecimal s).bind (fun me =>
    let m2 := rescale me.1 me.2 scale
    if m2.natAbs < 10 ^ precision then some m2 else none)

/-- The default value the database materializes for an absent field:
`none` when the column has no default (the field becomes `NULL`). -/
def defaultValue (d : ColDefault) (now nid : Int) : Option Value :=
  match d with
  | .noDefault => none
  | .value v => some v
  | .now => some (.date now)
  | .serialAuto => some (.int nid)

/-- Storage-side coercion of one value into its column type: decimal
columns convert their string input through `numericNormalize` (failing
on malformed input or overflow); every other type is stored as-is. -/
def coerceVal (t : ColType) (v : Value) : Option Value :=
  match t with
  | .decimalCol precision scale =>
    match v with
    | .str s => (numericNormalize precision scale s).map (fun m => .num m scale)
    | .null => some .null
    | _ => none
  | _ => some v

/-- The value one column stores for a validated record: the supplied
value (coerced into the column type), else the column's default, else
`NULL`. `now` is the insert timestamp and `nid` the next
auto-increment id. -/
def buildVal (c : Column) (now nid : Int) (rec : Row) : Option Value :=
  match lookupField rec c.name with
  | some v => coerceVal c.colType v
  | none => some ((defaultValue c.colDefault now nid).getD Value.null)

/-- Materialize the full stored row from a validated record,
column by column; fails iff some numeric coercion fails. -/
def buildRow (cols : List Column) (now nid : Int) (rec : Row) : Option Row :=
  match cols with
  | [] => some []
  | c :: cs =>
    match buildVal c now nid rec with
    | none => none
    | some v => (buildRow cs now nid rec).map (fun r => (c.name, v) :: r)

/-- The storage-side type check of a stored (coerced) value: like the
validator's, except decimal columns now hold a `num` at the declared
scale within the declared precision. -/
def dbCheckValue (t : ColType) (v : Value) : Bool :=
  match t with
  | .varchar len =>
    match v with
    | .str s =>
      match len with
      | some l => s.length ≤ l
      | none => true
    | _ => false
  | .text =>
    match v with
    | .str _ => true
    | _ => false
  | .integer =>
    match v with
    | .int _ => true
    | _ => false
  | .boolean =>
    match v with
    | .bool _ => true
    | _ => false
  | .timestamp =>
    match v with
    | .date _ => true
    | _ => false
  | .decimalCol precision scale =>
    match v with
    | .num m s2 => s2 = scale && m.natAbs < 10 ^ precision
    | _ => false
  | .serial =>
    match v with
    | .int _ => true
    | _ => false
  | .jsonb => true

/-- A stored row satisfies the declared column constraints: every
column present, `NULL` only where the column is nullable, and every
non-null value of the column's (storage) type. -/
def rowTypeOk (cols : List Column) (row : Row) : Bool :=
  cols.all (fun c =>
    match lookupField row c.name with
    | none => false
    | some v =>
      match v with
      | .null => !c.notNull
      | _ => dbCheckValue c.colType v)

/-- Two rows conflict iff some UNIQUE (or PRIMARY KEY) column holds the
same non-NULL value in both (SQL nulls-distinct semantics). -/
def rowsConflict (cols : List Column) (r1 r2 : Row) : Bool :=
  cols.any (fun c =>
    (c.isUnique || c.isPrimary) &&
      (match lookupField r1 c.name, lookupField r2 c.name with
       | some v1, some v2 => !(v1 = Value.null : Bool) && v1 = v2
       | _, _ => false))

/-- A database error surfaced by the storage layer (out of scope for
the validator, but required to model the declared constraints). -/
inductive DbErr where
  | badNumeric
  | typeViolation
  | uniqueViolation
deriving DecidableEq, Repr

/-- A table's storage state: its rows plus the next auto-increment id. -/
structure Store where
  rows : List Row
  nextId : Int
deriving DecidableEq, Repr

/-- Insert a validated record into a table: materialize defaults,
coerce numerics, check the declared types/NOT NULL constraints, check
UNIQUE constraints against the existing rows, then append. -/
def dbInsert (cols : List Column) (st : Store) (now : Int) (rec : Row) : Except DbErr Store :=
  match buildRow cols now st.nextId rec with
  | none => .error .badNumeric
  | some row =>
    if rowTypeOk cols row then
      if st.rows.any (fun r => rowsConflict cols r row) then .error .uniqueViolation
      else .ok ⟨st.rows ++ [row], st.nextId + 1⟩
    else .error .typeViolation

/-- An insert rejected either by the validator (with its issue list) or
by the storage layer. -/
inductive InsertError where
  | validation (issues : List Issue)
  | db (e : DbErr)
deriving DecidableEq, Repr

/-- The full insert pipeline through a validator. -/
def insertVia (s : InsertSchema) (st : Store) (now : Int) (p : Row) : Except InsertError Store :=
  match parseInsert s p with
  | .error is => .error (.validation is)
  | .ok rec =>
    match dbInsert s.table st now rec with
    | .error e => .error (.db e)
    | .ok st2 => .ok st2

/-- Insert a Series payload (validator, then storage). -/
def insertSeriesOp (st : Store) (now : Int) (p : Row) : Except InsertError Store :=
  insertVia insertSeriesSchema st now p

/-- Insert an Episode payload (validator, then storage). -/
def insertEpisodeOp (st : Store) (now : Int) (p : Row) : Except InsertError Store :=
  insertVia insertEpisodeSchema st now p

/-- Insert a WatchHistory payload (validator, then storage). -/
def insertWatchHistoryOp (st : Store) (now : Int) (p : Row) : Except InsertError Store :=
  insertVia insertWatchHistorySchema st now p

/-- Insert a Favorite payload (validator, then storage). -/
def insertFavoriteOp (st : Store) (now : Int) (p : Row) : Except InsertError Store :=
  insertVia insertFavoriteSchema st now p

/-- Upsert-insert a User payload: the source derives no zod validator
for `users` (`UpsertUser` is a compile-time type only), so payloads go
to the storage layer directly. -/
def upsertUser (st : Store) (now : Int) (p : Row) : Except DbErr Store :=
  dbInsert users st now p

/-- The reachable states of a table's store: the empty store (serial
counter at 1), closed under successful inserts. -/
inductive Reach {E : Type} (f : Store → Int → Row → Except E Store) : Store → Prop where
  | empty : Reach f ⟨[], 1⟩
  | step {st : Store} {now : Int} {p : Row} {st2 : Store} :
      Reach f st → f st now p = .ok st2 → Reach f st2

/-! ## The spec's payload contract

The specification states the validator contract in terms of a flat
predicate: "the validator succeeds and returns a normalized record if
all required fields are present and types match; it fails with a
validation error enumerating the offending fields otherwise."  The
following definitions state that contract directly (independently of
the issue-collecting validator above), to be compared with it. -/

/-- Spec-side: does a (non-null) value have the column's type?  A
varchar with declared length also bounds the string length. -/
def typeMatches (t : ColType) (v : Value) : Bool :=
  match t with
  | .varchar len =>
    match v with
    | .str s =>
      match len with
      | some l => s.length ≤ l
      | none => true
    | _ => false
  | .text =>
    match v with
    | .str _ => true
    | _ => false
  | .integer =>
    match v with
    | .int _ => true
    | _ => false
  | .boolean =>
    match v with
    | .bool _ => true
    | _ => false
  | .timestamp =>
    match v with
    | .date _ => true
    | _ => false
  | .decimalCol _ _ =>
    match v with
    | .str _ => true
    | _ => false
  | .serial =>
    match v with
    | .int _ => true
    | _ => false
  | .jsonb => true

/-- Spec-side: one field of the payload satisfies the contract for its
column: present if required, `null` only if nullable, and of the
column's type when present non-null. -/
def specFieldOk (c : Column) (p : Row) : Bool :=
  match lookupField p c.name with
  | none => !(colRequired c)
  | some v =>
    match v with
    | .null => !c.notNull
    | _ => typeMatches c.colType v

/-- Spec-side: the payload satisfies the table's required-field/type
contract ("all required fields are present and types match"). -/
def payloadOk (s : InsertSchema) (p : Row) : Bool :=
  (shapeOf s).all (fun c => specFieldOk c p)

/-! ## Validator lemmas -/

theorem zodCheck_eq_none_iff (t : ColType) (v : Value) :
    zodCheck t v = none ↔ typeMatches t v = true := by
  cases t <;> cases v <;> simp [zodCheck, typeMatches]
  rename_i len s
  cases len with
  | none => simp
  | some l => by_cases h : s.length ≤ l <;> simp [h]

theorem fieldIssues_eq_nil_iff (c : Column) (p : Row) :
    fieldIssues c p = [] ↔ specFieldOk c p = true := by
  unfold fieldIssues specFieldOk
  cases hl : lookupField p c.name with
  | none => cases h : colRequired c <;> simp [h]
  | some v =>
    cases v <;> simp only []
    case null => cases h : c.notNull <;> simp [h]
    all_goals
      cases hz : zodCheck c.colType _ <;>
        simp_all [← zodCheck_eq_none_iff]

theorem mem_issuesOf {i : Issue} {cols : List Column} {p : Row} :
    i ∈ issuesOf cols p ↔ ∃ c ∈ cols, i ∈ fieldIssues c p := by
  induction cols with
  | nil => simp [issuesOf]
  | cons c cs ih => simp [issuesOf, ih]

theorem issuesOf_eq_nil_iff (cols : List Column) (p : Row) :
    issuesOf cols p = [] ↔ ∀ c ∈ cols, fieldIssues c p = [] := by
  induction cols with
  | nil => simp [issuesOf]
  | cons c cs ih => simp [issuesOf, ih]

theorem fieldIssues_field {i : Issue} {c : Column} {p : Row}
    (h : i ∈ fieldIssues c p) : i.field = c.name ∧ specFieldOk c p = false := by
  constructor
  · unfold fieldIssues at h
    cases hl : lookupField p c.name <;> rw [hl] at h
    · split at h <;> simp_all
    · rename_i v
      cases v <;> simp only [] at h <;> (split at h <;> simp_all)
  · rcases h2 : specFieldOk c p with _ | _
    · rfl
    · rw [← fieldIssues_eq_nil_iff] at h2
      rw [h2] at h
      simp at h

theorem parseInsert_ok_iff (s : InsertSchema) (p : Row) :
    (∃ rec, parseInsert s p = .ok rec) ↔ payloadOk s p = true := by
  cases h : issuesOf (shapeOf s) p with
  | nil =>
    constructor
    · intro _
      unfold payloadOk
      rw [List.all_eq_true]
      intro c hc
      rw [← fieldIssues_eq_nil_iff]
      exact (issuesOf_eq_nil_iff _ _).mp h c hc
    · intro _
      refine ⟨(shapeOf s).filterMap (fun c => (lookupField p c.name).map (fun v => (c.name, v))), ?_⟩
      unfold parseInsert
      rw [h]
  | cons i is =>
    constructor
    · rintro ⟨rec, hrec⟩
      unfold parseInsert at hrec
      rw [h] at hrec
      cases hrec
    · intro hall
      exfalso
      have h0 : issuesOf (shapeOf s) p = [] := by
        rw [issuesOf_eq_nil_iff]
        intro c hc
        rw [fieldIssues_eq_nil_iff]
        unfold payloadOk at hall
        rw [List.all_eq_true] at hall
        exact hall c hc
      rw [h] at h0
      cases h0

theorem parseInsert_error_inv {s : InsertSchema} {p : Row} {is : List Issue}
    (h : parseInsert s p = .error is) :
    is = issuesOf (shapeOf s) p ∧ is ≠ [] := by
  unfold parseInsert at h
  cases h2 : issuesOf (shapeOf s) p <;> rw [h2] at h
  · cases h
  · cases h
    exact ⟨rfl, by simp⟩

theorem specFieldOk_false_issue {c : Column} {p : Row}
    (hc : specFieldOk c p = false) : ∃ i ∈ fieldIssues c p, i.field = c.name := by
  cases hf : fieldIssues c p with
  | nil =>
    rw [fieldIssues_eq_nil_iff] at hf
    rw [hf] at hc
    cases hc
  | cons i is =>
    refine ⟨i, by simp, ?_⟩
    exact (fieldIssues_field (by rw [hf]; simp)).1

theorem parseInsert_missing_required {s : InsertSchema} {p : Row} {f : String}
    (hf : f ∈ requiredFields s) (hl : lookupField p f = none) :
    ∃ is, parseInsert s p = .error is := by
  unfold requiredFields at hf
  rw [List.mem_map] at hf
  obtain ⟨c, hc, hname⟩ := hf
  rw [List.mem_filter] at hc
  obtain ⟨hcshape, hcreq⟩ := hc
  subst hname
  have hfail : specFieldOk c p = false := by
    unfold specFieldOk
    rw [hl, hcreq]
    rfl
  cases hp : parseInsert s p with
  | ok rec =>
    exfalso
    have hok := (parseInsert_ok_iff s p).mp ⟨rec, hp⟩
    unfold payloadOk at hok
    rw [List.all_eq_true] at hok
    have := hok c hcshape
    rw [hfail] at this
    cases this
  | error is => exact ⟨is, rfl⟩

theorem lookupField_cons_ne {k2 k : String} (v : Value) (p : Row) (h : k2 ≠ k) :
    lookupField ((k2, v) :: p) k = lookupField p k := by
  simp [lookupField, h]

theorem fieldIssues_cons_ne {c : Column} {k : String} (v : Value) (p : Row) (h : c.name ≠ k) :
    fieldIssues c ((k, v) :: p) = fieldIssues c p := by
  unfold fieldIssues
  rw [lookupField_cons_ne v p (Ne.symm h)]

theorem issuesOf_cons_ne {cols : List Column} {k : String} (v : Value) (p : Row)
    (h : ∀ c ∈ cols, c.name ≠ k) :
    issuesOf cols ((k, v) :: p) = issuesOf cols p := by
  induction cols with
  | nil => rfl
  | cons c cs ih =>
    unfold issuesOf
    rw [fieldIssues_cons_ne v p (h c (by simp)),
      ih (fun c2 hc2 => h c2 (List.mem_cons_of_mem _ hc2))]

theorem record_cons_ne {cols : List Column} {k : String} (v : Value) (p : Row)
    (h : ∀ c ∈ cols, c.name ≠ k) :
    (cols.filterMap (fun c => (lookupField ((k, v) :: p) c.name).map (fun v2 => (c.name, v2)))) =
    (cols.filterMap (fun c => (lookupField p c.name).map (fun v2 => (c.name, v2)))) := by
  induction cols with
  | nil => rfl
  | cons c cs ih =>
    simp only [List.filterMap_cons]
    rw [lookupField_cons_ne v p (Ne.symm (h c (by simp))),
      ih (fun c2 hc2 => h c2 (List.mem_cons_of_mem _ hc2))]

theorem shapeOf_name_ne {s : InsertSchema} {c : Column} {k : String}
    (hc : c ∈ shapeOf s) (hk : k ∈ s.omitted) : c.name ≠ k := by
  unfold shapeOf at hc
  rw [List.mem_filter] at hc
  obtain ⟨-, hpred⟩ := hc
  intro he
  have hany : (s.omitted.any (fun o => o = c.name)) = true :=
    List.any_eq_true.mpr ⟨k, hk, by simp [he]⟩
  rw [hany] at hpred
  cases hpred

theorem parseInsert_strip {s : InsertSchema} {k : String}
    (hk : k ∈ s.omitted) (v : Value) (p : Row) :
    parseInsert s ((k, v) :: p) = parseInsert s p := by
  have h : ∀ c ∈ shapeOf s, c.name ≠ k := fun c hc => shapeOf_name_ne hc hk
  unfold parseInsert
  rw [issuesOf_cons_ne v p h, record_cons_ne v p h]

theorem requiredFields_not_omitted {s : InsertSchema} {k : String}
    (hk : k ∈ s.omitted) : k ∉ requiredFields s := by
  intro hmem
  unfold requiredFields at hmem
  rw [List.mem_map] at hmem
  obtain ⟨c, hc, hname⟩ := hmem
  rw [List.mem_filter] at hc
  exact shapeOf_name_ne hc.1 hk hname

/-- The four insert validators the source derives. -/
def insertSchemas : List InsertSchema :=
  [insertSeriesSchema, insertEpisodeSchema, insertWatchHistorySchema, insertFavoriteSchema]

/-- Decidable equality on `Except`, so that concrete runs of the
validator and of the insert pipeline can be checked by `decide`. -/
instance exceptDecEq {E A : Type} [DecidableEq E] [DecidableEq A] :
    DecidableEq (Except E A) := fun x y =>
  match x, y with
  | .ok a, .ok b =>
    if h : a = b then isTrue (by rw [h])
    else isFalse (by intro he; cases he; exact h rfl)
  | .error e, .error f =>
    if h : e = f then isTrue (by rw [h])
    else isFalse (by intro he; cases he; exact h rfl)
  | .ok _, .error _ => isFalse (by intro he; cases he)
  | .error _, .ok _ => isFalse (by intro he; cases he)

/-! ## Claim theorems: validator level -/

/-- C1: For every entity with an insert validator (Series, Episode,
WatchHistory, Favorite), validating a payload that is missing a
required field fails, and validating any payload that satisfies the
required-field/type contract (all required fields present, all
supplied fields of the correct type) succeeds. -/
theorem insert_validators_required_and_sufficient :
    ∀ s ∈ insertSchemas, ∀ p : Row,
      (∀ f ∈ requiredFields s, lookupField p f = none → ∃ is, parseInsert s p = .error is) ∧
      (payloadOk s p = true → ∃ rec, parseInsert s p = .ok rec) := by
  intro s _ p
  exact ⟨fun f hf hl => parseInsert_missing_required hf hl,
    fun h => (parseInsert_ok_iff s p).mpr h⟩

/-- Witness for C1: a Series payload without `title` is rejected, and
one consisting of just a `title` is accepted. -/
theorem insert_validators_required_and_sufficient_witness :
    (∃ is, parseInsert insertSeriesSchema [] = .error is) ∧
    (∃ rec, parseInsert insertSeriesSchema [("title", Value.str "Test Drama")] = .ok rec) := by
  constructor
  · exact (insert_validators_required_and_sufficient insertSeriesSchema
      (by simp [insertSchemas]) []).1 "title" (by decide) rfl
  · exact (insert_validators_required_and_sufficient insertSeriesSchema
      (by simp [insertSchemas]) [("title", Value.str "Test Drama")]).2 (by decide)

/-- C2: the excluded system-generated fields are exactly the declared
omit sets (`id`/`createdAt`, and `id`/`watchedAt` for WatchHistory);
no omitted field is ever required, and supplying an omitted field
never changes the validation result (it is stripped, not rejected). -/
theorem insert_validators_omit_system_fields :
    insertSeriesSchema.omitted = ["id", "createdAt"] ∧
    insertEpisodeSchema.omitted = ["id", "createdAt"] ∧
    insertWatchHistorySchema.omitted = ["id", "watchedAt"] ∧
    insertFavoriteSchema.omitted = ["id", "createdAt"] ∧
    ∀ s ∈ insertSchemas, ∀ k ∈ s.omitted,
      k ∉ requiredFields s ∧
      ∀ (v : Value) (p : Row), parseInsert s ((k, v) :: p) = parseInsert s p := by
  refine ⟨rfl, rfl, rfl, rfl, ?_⟩
  intro s _ k hk
  exact ⟨requiredFields_not_omitted hk, fun v p => parseInsert_strip hk v p⟩

/-- Witness for C2: `id` is not required by the Series validator, and
supplying an `id` leaves the validation of a Series payload unchanged. -/
theorem insert_validators_omit_system_fields_witness :
    ("id" ∉ requiredFields insertSeriesSchema) ∧
    parseInsert insertSeriesSchema (("id", Value.int 7) :: [("title", Value.str "x")]) =
      parseInsert insertSeriesSchema [("title", Value.str "x")] := by
  have h := (insert_validators_omit_system_fields.2.2.2.2) insertSeriesSchema
    (by simp [insertSchemas]) "id" (by decide)
  exact ⟨h.1, h.2 (Value.int 7) [("title", Value.str "x")]⟩

/-- C4: each insert validator yields either a normalized record or a
validation error; it succeeds exactly when the payload satisfies the
table's required-field/type contract, and on failure the nonempty
issue list enumerates exactly the offending fields with a reason for
each. -/
theorem insert_validators_error_characterization :
    ∀ s ∈ insertSchemas, ∀ p : Row,
      ((∃ rec, parseInsert s p = .ok rec) ↔ payloadOk s p = true) ∧
      (∀ is, parseInsert s p = .error is →
        is ≠ [] ∧
        (∀ i ∈ is, ∃ c ∈ shapeOf s, c.name = i.field ∧ specFieldOk c p = false) ∧
        (∀ c ∈ shapeOf s, specFieldOk c p = false → ∃ i ∈ is, i.field = c.name)) := by
  intro s _ p
  refine ⟨parseInsert_ok_iff s p, ?_⟩
  intro is herr
  obtain ⟨his, hne⟩ := parseInsert_error_inv herr
  subst his
  refine ⟨hne, ?_, ?_⟩
  · intro i hi
    obtain ⟨c, hc, hic⟩ := mem_issuesOf.mp hi
    obtain ⟨hf, hbad⟩ := fieldIssues_field hic
    exact ⟨c, hc, hf.symm, hbad⟩
  · intro c hc hbad
    obtain ⟨i, hif, hname⟩ := specFieldOk_false_issue hbad
    exact ⟨i, mem_issuesOf.mpr ⟨c, hc, hif⟩, hname⟩

/-- Witness for C4: a well-typed Episode payload is accepted, and the
empty Episode payload produces the nonempty issue list naming its two
missing required fields. -/
theorem insert_validators_error_characterization_witness :
    (∃ rec, parseInsert insertEpisodeSchema
      [("episodeNumber", Value.int 1), ("title", Value.str "E")] = .ok rec) ∧
    ([(⟨"episodeNumber", IssueKind.required⟩ : Issue), ⟨"title", IssueKind.required⟩] ≠
      ([] : List Issue)) := by
  constructor
  · exact ((insert_validators_error_characterization insertEpisodeSchema
      (by simp [insertSchemas]) [("episodeNumber", Value.int 1), ("title", Value.str "E")]).1).mpr
      (by decide)
  · exact ((insert_validators_error_characterization insertEpisodeSchema
      (by simp [insertSchemas]) []).2 _ (by decide)).1

/-- C5: the WatchHistory insert validator accepts every integer value
of `progressPercentage` (including values below 0 and above 100) and
every boolean value of `completed`, independently of each other, and
passes both through unchanged (no clamping, no derived correlation). -/
theorem watch_history_progress_unconstrained :
    ∀ (n : Int) (b : Bool),
      parseInsert insertWatchHistorySchema
        [("progressPercentage", Value.int n), ("completed", Value.bool b)] =
      .ok [("progressPercentage", Value.int n), ("completed", Value.bool b)] := by
  intro n b
  rfl

/-- Witness for C5: `progressPercentage = -5` with `completed = true`
and `progressPercentage = 101` with `completed = false` both validate
unchanged. -/
theorem watch_history_progress_unconstrained_witness :
    parseInsert insertWatchHistorySchema
        [("progressPercentage", Value.int (-5)), ("completed", Value.bool true)] =
      .ok [("progressPercentage", Value.int (-5)), ("completed", Value.bool true)] ∧
    parseInsert insertWatchHistorySchema
        [("progressPercentage", Value.int 101), ("completed", Value.bool false)] =
      .ok [("progressPercentage", Value.int 101), ("completed", Value.bool false)] :=
  ⟨watch_history_progress_unconstrained (-5) true,
   watch_history_progress_unconstrained 101 false⟩

/-- C6: an Episode payload whose `seriesId` is absent or `null`, with
`episodeNumber` and `title` present and correctly typed, passes
validation: the series foreign key is optional and orphaned episodes
are allowed. -/
theorem episode_orphan_allowed :
    ∀ (en : Int) (t : String), t.length ≤ 255 →
      (parseInsert insertEpisodeSchema
          [("episodeNumber", Value.int en), ("title", Value.str t)] =
        .ok [("episodeNumber", Value.int en), ("title", Value.str t)]) ∧
      (parseInsert insertEpisodeSchema
          [("seriesId", Value.null), ("episodeNumber", Value.int en), ("title", Value.str t)] =
        .ok [("seriesId", Value.null), ("episodeNumber", Value.int en), ("title", Value.str t)]) := by
  intro en t ht
  constructor <;>
    simp [parseInsert, shapeOf, insertEpisodeSchema, episodes, issuesOf, fieldIssues,
      lookupField, zodCheck, colRequired, hasDefault, ht]

/-- Witness for C6: episode number 1, title "Pilot", with and without
an explicit `null` series reference. -/
theorem episode_orphan_allowed_witness :
    (parseInsert insertEpisodeSchema
        [("episodeNumber", Value.int 1), ("title", Value.str "Pilot")] =
      .ok [("episodeNumber", Value.int 1), ("title", Value.str "Pilot")]) ∧
    (parseInsert insertEpisodeSchema
        [("seriesId", Value.null), ("episodeNumber", Value.int 1), ("title", Value.str "Pilot")] =
      .ok [("seriesId", Value.null), ("episodeNumber", Value.int 1), ("title", Value.str "Pilot")]) :=
  episode_orphan_allowed 1 "Pilot" (by decide)

/-- A string of `n` copies of the letter a, for length-cap tests. -/
def mkStr (n : Nat) : String := String.mk (List.replicate n 'a')

set_option maxRecDepth 100000 in
/-- C10: the declared varchar length caps are enforced at insert
validation: Series titles over 255 characters and poster/cover URLs
over 500 are rejected (naming the offending field), as are Episode
titles over 255 and thumbnail/video URLs over 500; values at the cap
pass. -/
theorem varchar_length_caps_enforced :
    (parseInsert insertSeriesSchema [("title", Value.str (mkStr 256))] =
      .error [⟨"title", .tooBig⟩]) ∧
    (parseInsert insertSeriesSchema [("title", Value.str (mkStr 255))] =
      .ok [("title", Value.str (mkStr 255))]) ∧
    (parseInsert insertSeriesSchema
        [("title", Value.str "t"), ("posterUrl", Value.str (mkStr 501))] =
      .error [⟨"posterUrl", .tooBig⟩]) ∧
    (parseInsert insertSeriesSchema
        [("title", Value.str "t"), ("coverUrl", Value.str (mkStr 501))] =
      .error [⟨"coverUrl", .tooBig⟩]) ∧
    (parseInsert insertEpisodeSchema
        [("episodeNumber", Value.int 1), ("title", Value.str (mkStr 256))] =
      .error [⟨"title", .tooBig⟩]) ∧
    (parseInsert insertEpisodeSchema
        [("episodeNumber", Value.int 1), ("title", Value.str "t"),
         ("thumbnailUrl", Value.str (mkStr 501))] =
      .error [⟨"thumbnailUrl", .tooBig⟩]) ∧
    (parseInsert insertEpisodeSchema
        [("episodeNumber", Value.int 1), ("title", Value.str "t"),
         ("videoUrl", Value.str (mkStr 501))] =
      .error [⟨"videoUrl", .tooBig⟩]) ∧
    (parseInsert insertSeriesSchema
        [("title", Value.str "t"), ("posterUrl", Value.str (mkStr 500))] =
      .ok [("title", Value.str "t"), ("posterUrl", Value.str (mkStr 500))]) := by
  decide

/-! ## Claim theorems: storage level -/

/-- Whether an insert pipeline run succeeded. -/
def isOkE {E A : Type} (r : Except E A) : Bool :=
  match r with
  | .ok _ => true
  | .error _ => false

/-- The row appended by a successful insert (junk on failure). -/
def insertedRow {E : Type} (r : Except E Store) : Row :=
  match r with
  | .ok st => st.rows.getLastD []
  | .error _ => []

/-- C3: declared defaults are materialized on insert: a User inserted
without `subscriptionTier` stores tier "free"; a Series inserted with
only a title stores `status` "ongoing", `isFeatured` false and
`subscriptionRequired` "free"; a WatchHistory inserted without
`completed` stores `completed` false and `progressPercentage` 0. -/
theorem insert_defaults_applied :
    (isOkE (upsertUser ⟨[], 1⟩ 0 [("id", Value.str "u1")]) = true) ∧
    (lookupField (insertedRow (upsertUser ⟨[], 1⟩ 0 [("id", Value.str "u1")]))
      "subscriptionTier" = some (Value.str "free")) ∧
    (isOkE (insertSeriesOp ⟨[], 1⟩ 0 [("title", Value.str "Test Drama")]) = true) ∧
    (lookupField (insertedRow (insertSeriesOp ⟨[], 1⟩ 0 [("title", Value.str "Test Drama")]))
      "status" = some (Value.str "ongoing")) ∧
    (lookupField (insertedRow (insertSeriesOp ⟨[], 1⟩ 0 [("title", Value.str "Test Drama")]))
      "isFeatured" = some (Value.bool false)) ∧
    (lookupField (insertedRow (insertSeriesOp ⟨[], 1⟩ 0 [("title", Value.str "Test Drama")]))
      "subscriptionRequired" = some (Value.str "free")) ∧
    (isOkE (insertWatchHistoryOp ⟨[], 1⟩ 0 []) = true) ∧
    (lookupField (insertedRow (insertWatchHistoryOp ⟨[], 1⟩ 0 []))
      "completed" = some (Value.bool false)) ∧
    (lookupField (insertedRow (insertWatchHistoryOp ⟨[], 1⟩ 0 []))
      "progressPercentage" = some (Value.int 0)) := by
  decide

theorem dbInsert_ok_inv {cols : List Column} {st : Store} {now : Int} {rec : Row} {st2 : Store}
    (h : dbInsert cols st now rec = .ok st2) :
    ∃ row, buildRow cols now st.nextId rec = some row ∧
      rowTypeOk cols row = true ∧
      (∀ r ∈ st.rows, rowsConflict cols r row = false) ∧
      st2 = ⟨st.rows ++ [row], st.nextId + 1⟩ := by
  unfold dbInsert at h
  split at h
  · cases h
  · rename_i row hb
    split at h
    · rename_i ht
      split at h
      · cases h
      · rename_i hc
        cases h
        refine ⟨row, hb, ht, ?_, rfl⟩
        intro r hr
        cases hrc : rowsConflict cols r row
        · rfl
        · exact absurd (List.any_eq_true.mpr ⟨r, hr, hrc⟩) hc
    · cases h

theorem parseInsert_ok_rec {s : InsertSchema} {p rec : Row}
    (h : parseInsert s p = .ok rec) :
    rec = (shapeOf s).filterMap (fun c => (lookupField p c.name).map (fun v => (c.name, v))) := by
  unfold parseInsert at h
  cases h2 : issuesOf (shapeOf s) p <;> rw [h2] at h
  · cases h
    rfl
  · cases h

theorem insertVia_ok_inv {s : InsertSchema} {st : Store} {now : Int} {p : Row} {st2 : Store}
    (h : insertVia s st now p = .ok st2) :
    ∃ rec row, parseInsert s p = .ok rec ∧
      buildRow s.table now st.nextId rec = some row ∧
      rowTypeOk s.table row = true ∧
      (∀ r ∈ st.rows, rowsConflict s.table r row = false) ∧
      st2 = ⟨st.rows ++ [row], st.nextId + 1⟩ := by
  unfold insertVia at h
  split at h
  · cases h
  · rename_i rec hp
    split at h
    · cases h
    · rename_i st3 hd
      cases h
      obtain ⟨row, hb, ht, hc, hst⟩ := dbInsert_ok_inv hd
      exact ⟨rec, row, hp, hb, ht, hc, hst⟩

/-- The declared `decimal(3, 1)` constraint on a stored Series rating:
`NULL`, or a fixed-point number with scale 1 and at most three total
digits (mantissa between -999 and 999). -/
def ratingWithinDecimal31 (r : Row) : Prop :=
  lookupField r "rating" = some Value.null ∨
  ∃ m : Int, lookupField r "rating" = some (Value.num m 1) ∧ m.natAbs ≤ 999

theorem rowTypeOk_rating {row : Row} (h : rowTypeOk series row = true) :
    ratingWithinDecimal31 row := by
  have hcol : (match lookupField row "rating" with
      | none => false
      | some v =>
        match v with
        | .null => !(false : Bool)
        | _ => dbCheckValue (.decimalCol 3 1) v) = true :=
    List.all_eq_true.mp h
      ⟨"rating", .decimalCol 3 1, false, .noDefault, false, false, none⟩ (by simp [series])
  unfold ratingWithinDecimal31
  cases hl : lookupField row "rating" <;> rw [hl] at hcol
  · cases hcol
  · rename_i v
    cases v with
    | null => left; rfl
    | num m s2 =>
      right
      simp only [dbCheckValue, Bool.and_eq_true, decide_eq_true_eq] at hcol
      obtain ⟨hs2, hm⟩ := hcol
      subst hs2
      refine ⟨m, rfl, ?_⟩
      have h1000 : (10 : ℕ) ^ 3 = 1000 := by norm_num
      rw [h1000] at hm
      omega
    | str s => exact absurd hcol Bool.false_ne_true
    | int n => exact absurd hcol Bool.false_ne_true
    | bool b => exact absurd hcol Bool.false_ne_true
    | date t => exact absurd hcol Bool.false_ne_true

/-- C9: in every reachable Series store, every stored row's rating is
`NULL` or a fixed-point value of scale 1 with at most 3 digits — the
declared `decimal(3, 1)` shape. -/
theorem series_rating_precision_invariant :
    ∀ st : Store, Reach insertSeriesOp st → ∀ r ∈ st.rows, ratingWithinDecimal31 r := by
  intro st hst
  induction hst with
  | empty => intro r hr; cases hr
  | step hreach hstep ih =>
    obtain ⟨rec, row, hp, hb, ht, hc, hst2⟩ := insertVia_ok_inv hstep
    subst hst2
    intro r hr
    rw [List.mem_append] at hr
    rcases hr with hr | hr
    · exact ih r hr
    · rw [List.mem_singleton] at hr
      subst hr
      exact rowTypeOk_rating ht

/-- The row stored for a Series insert of title "T" and rating "8.53"
(rounded to 8.5 on storage). -/
def seriesRow85 : Row :=
  [("id", .int 1), ("title", .str "T"), ("description", .null), ("posterUrl", .null),
   ("coverUrl", .null), ("genre", .null), ("country", .null), ("language", .null),
   ("year", .null), ("rating", .num 85 1), ("totalEpisodes", .null),
   ("status", .str "ongoing"), ("subscriptionRequired", .str "free"),
   ("isFeatured", .bool false), ("createdAt", .date 0)]

/-- Witness for C9: the store reached by inserting a Series with
rating "8.53" satisfies the rating constraint on its stored row. -/
theorem series_rating_precision_invariant_witness :
    ratingWithinDecimal31 seriesRow85 :=
  series_rating_precision_invariant ⟨[seriesRow85], 2⟩
    (Reach.step Reach.empty
      (by decide : insertSeriesOp ⟨[], 1⟩ 0 [("title", Value.str "T"), ("rating", Value.str "8.53")] =
        .ok ⟨[seriesRow85], 2⟩))
    seriesRow85 (by simp)

/-- Two user rows never share a non-NULL email value. -/
def distinctNonNullEmails (r1 r2 : Row) : Prop :=
  ∀ v : Value, v ≠ Value.null →
    lookupField r1 "email" = some v → lookupField r2 "email" ≠ some v

theorem rowsConflict_email {r1 r2 : Row} (h : rowsConflict users r1 r2 = false) :
    distinctNonNullEmails r1 r2 := by
  intro v hv h1 h2
  have hmem : (⟨"email", .varchar none, false, .noDefault, true, false, none⟩ : Column) ∈ users := by
    simp [users]
  have hconf : rowsConflict users r1 r2 = true := by
    unfold rowsConflict
    refine List.any_eq_true.mpr ⟨_, hmem, ?_⟩
    simp only [Bool.or_self, Bool.true_and]
    rw [h1, h2]
    simp [hv]
  rw [h] at hconf
  cases hconf

/-- C8 (amended): in every reachable users store, no two rows share
the same non-NULL email value — the declared UNIQUE constraint with
SQL semantics, under which rows with a NULL email are unconstrained. -/
theorem users_email_unique_nonnull :
    ∀ st : Store, Reach upsertUser st → st.rows.Pairwise distinctNonNullEmails := by
  intro st hst
  induction hst with
  | empty => simp
  | step hreach hstep ih =>
    obtain ⟨row, hb, ht, hc, hst2⟩ := dbInsert_ok_inv hstep
    subst hst2
    simp only []
    rw [List.pairwise_append]
    refine ⟨ih, by simp, ?_⟩
    intro a ha b hb2
    rw [List.mem_singleton] at hb2
    subst hb2
    exact rowsConflict_email (hc a ha)

/-- The row stored for a user upserted with id `uid` and email `e`. -/
def userRowEmail (uid e : String) : Row :=
  [("id", .str uid), ("email", .str e), ("firstName", .null), ("lastName", .null),
   ("profileImageUrl", .null), ("subscriptionTier", .str "free"),
   ("createdAt", .date 0), ("updatedAt", .date 0)]

/-- Witness for C8 (amended): the store reached by inserting users u1
(email "a@x") and u2 (email "b@x") pairwise satisfies the non-NULL
email distinctness. -/
theorem users_email_unique_nonnull_witness :
    ([userRowEmail "u1" "a@x", userRowEmail "u2" "b@x"] : List Row).Pairwise
      distinctNonNullEmails :=
  users_email_unique_nonnull ⟨[userRowEmail "u1" "a@x", userRowEmail "u2" "b@x"], 3⟩
    (Reach.step
      (Reach.step Reach.empty
        (by decide :
          upsertUser ⟨[], 1⟩ 0 [("id", Value.str "u1"), ("email", Value.str "a@x")] =
            .ok ⟨[userRowEmail "u1" "a@x"], 2⟩))
      (by decide :
        upsertUser ⟨[userRowEmail "u1" "a@x"], 2⟩ 0
            [("id", Value.str "u2"), ("email", Value.str "b@x")] =
          .ok ⟨[userRowEmail "u1" "a@x", userRowEmail "u2" "b@x"], 3⟩))

/-- The row stored for a user upserted with id `uid` and no email. -/
def userRowNullEmail (uid : String) : Row :=
  [("id", .str uid), ("email", .null), ("firstName", .null), ("lastName", .null),
   ("profileImageUrl", .null), ("subscriptionTier", .str "free"),
   ("createdAt", .date 0), ("updatedAt", .date 0)]

/-- Counterexample to C8 as stated: a store holding two distinct user
rows that carry the same (NULL) email value is reachable — SQL UNIQUE
does not reject duplicate NULLs, so "no two distinct User rows carry
the same email value" fails on rows with absent emails. -/
theorem users_email_duplicate_null_counterexample :
    Reach upsertUser ⟨[userRowNullEmail "u1", userRowNullEmail "u2"], 3⟩ ∧
    userRowNullEmail "u1" ≠ userRowNullEmail "u2" ∧
    lookupField (userRowNullEmail "u1") "email" =
      lookupField (userRowNullEmail "u2") "email" ∧
    ¬ ([userRowNullEmail "u1", userRowNullEmail "u2"] : List Row).Pairwise
        (fun r1 r2 => lookupField r1 "email" ≠ lookupField r2 "email") := by
  refine ⟨Reach.step
      (Reach.step Reach.empty
        (by decide :
          upsertUser ⟨[], 1⟩ 0 [("id", Value.str "u1")] =
            .ok ⟨[userRowNullEmail "u1"], 2⟩))
      (by decide :
        upsertUser ⟨[userRowNullEmail "u1"], 2⟩ 0 [("id", Value.str "u2")] =
          .ok ⟨[userRowNullEmail "u1", userRowNullEmail "u2"], 3⟩),
    by decide, by decide, ?_⟩
  intro hpw
  have h12 := (List.pairwise_cons.mp hpw).1 (userRowNullEmail "u2") (by simp)
  exact h12 (by decide)

theorem lookup_record_none {cols : List Column} {p : Row} {k : String}
    (h : ∀ c ∈ cols, c.name ≠ k) :
    lookupField (cols.filterMap (fun c => (lookupField p c.name).map (fun v => (c.name, v)))) k =
      none := by
  induction cols with
  | nil => rfl
  | cons c cs ih =>
    have ih2 := ih (fun c2 hc2 => h c2 (List.mem_cons_of_mem _ hc2))
    cases hl : lookupField p c.name with
    | none => simpa [List.filterMap_cons, hl] using ih2
    | some v => simpa [List.filterMap_cons, hl, lookupField, h c (List.mem_cons_self c cs)] using ih2

theorem buildRow_cons_inv {c : Column} {cs : List Column} {now nid : Int} {rec row : Row}
    (hb : buildRow (c :: cs) now nid rec = some row) :
    ∃ v rest, buildVal c now nid rec = some v ∧ buildRow cs now nid rec = some rest ∧
      row = (c.name, v) :: rest := by
  unfold buildRow at hb
  split at hb
  · cases hb
  · rename_i v hv
    cases hr : buildRow cs now nid rec <;> rw [hr] at hb
    · simp at hb
    · rename_i rest
      simp only [Option.map_some'] at hb
      cases hb
      exact ⟨v, rest, hv, rfl, rfl⟩

theorem favoriteRow_id {now nid : Int} {rec row : Row}
    (hrec : lookupField rec "id" = none)
    (hb : buildRow favorites now nid rec = some row) :
    lookupField row "id" = some (Value.int nid) := by
  have hb2 : buildRow ((⟨"id", .serial, true, .serialAuto, false, true, none⟩ : Column) ::
      [⟨"userId", .varchar none, false, .noDefault, false, false, some "users"⟩,
       ⟨"seriesId", .integer, false, .noDefault, false, false, some "series"⟩,
       ⟨"createdAt", .timestamp, false, .now, false, false, none⟩]) now nid rec = some row := hb
  obtain ⟨v, rest, hv, hr, hrow⟩ := buildRow_cons_inv hb2
  have hval : buildVal (⟨"id", ColType.serial, true, ColDefault.serialAuto, false, true, none⟩ :
      Column) now nid rec = some (Value.int nid) := by
    simp [buildVal, hrec, defaultValue]
  rw [hval] at hv
  cases hv
  subst hrow
  simp [lookupField]

theorem rowsConflict_favorites {r1 r2 : Row} {k1 k2 : Int}
    (h1 : lookupField r1 "id" = some (.int k1)) (h2 : lookupField r2 "id" = some (.int k2))
    (hne : k1 ≠ k2) : rowsConflict favorites r1 r2 = false := by
  simp [rowsConflict, favorites, h1, h2, hne]

theorem fav_ids_bounded :
    ∀ st : Store, Reach insertFavoriteOp st →
      ∀ r ∈ st.rows, ∃ k : Int, lookupField r "id" = some (Value.int k) ∧ k < st.nextId := by
  intro st hst
  induction hst with
  | empty => intro r hr; cases hr
  | @step st1 now p st2 hreach hstep ih =>
    obtain ⟨rec, row, hp, hb, ht, hc, hst2⟩ := insertVia_ok_inv hstep
    subst hst2
    have hrecid : lookupField rec "id" = none := by
      rw [parseInsert_ok_rec hp]
      exact lookup_record_none
        (fun c hcs => shapeOf_name_ne hcs (by simp [insertFavoriteSchema]))
    intro r hr
    simp only [List.mem_append, List.mem_singleton] at hr
    rcases hr with hr | hr
    · obtain ⟨k, hk, hlt⟩ := ih r hr
      refine ⟨k, hk, ?_⟩
      show k < st1.nextId + 1
      omega
    · subst hr
      refine ⟨st1.nextId, favoriteRow_id hrecid hb, ?_⟩
      show st1.nextId < st1.nextId + 1
      omega

/-- The normalized duplicate Favorite payload for user u1, series 7. -/
def favPairPayload : Row := [("userId", Value.str "u1"), ("seriesId", Value.int 7)]

/-- First stored favorite row for (u1, 7). -/
def favRow1 : Row :=
  [("id", .int 1), ("userId", .str "u1"), ("seriesId", .int 7), ("createdAt", .date 0)]

/-- Second stored favorite row for the same (u1, 7) pair. -/
def favRow2 : Row :=
  [("id", .int 2), ("userId", .str "u1"), ("seriesId", .int 7), ("createdAt", .date 0)]

/-- The favorites store after one insert of `favPairPayload`. -/
def favSt1 : Store := ⟨[favRow1], 2⟩

/-- The favorites store after two inserts of `favPairPayload`. -/
def favSt2 : Store := ⟨[favRow1, favRow2], 3⟩

/-- C7: duplicate Favorites for the same (userId, seriesId) pair are
permitted: the Favorite insert pipeline never raises a uniqueness
rejection from any reachable store, and inserting the same favorite
payload twice succeeds, storing two rows with the same user/series
pair. -/
theorem favorites_duplicates_permitted :
    (∀ st : Store, Reach insertFavoriteOp st → ∀ (now : Int) (p : Row),
      insertFavoriteOp st now p ≠ .error (.db .uniqueViolation)) ∧
    (parseInsert insertFavoriteSchema favPairPayload = .ok favPairPayload) ∧
    (insertFavoriteOp ⟨[], 1⟩ 0 favPairPayload = .ok favSt1) ∧
    (insertFavoriteOp favSt1 0 favPairPayload = .ok favSt2) ∧
    (lookupField favRow1 "userId" = lookupField favRow2 "userId") ∧
    (lookupField favRow1 "seriesId" = lookupField favRow2 "seriesId") := by
  refine ⟨?_, by decide, by decide, by decide, by decide, by decide⟩
  intro st hst now p heq
  unfold insertFavoriteOp insertVia at heq
  split at heq
  · simp at heq
  · rename_i rec hp
    split at heq
    · rename_i e hd
      have he : e = DbErr.uniqueViolation := by
        simp only [Except.error.injEq, InsertError.db.injEq] at heq
        exact heq
      subst he
      have hrecid : lookupField rec "id" = none := by
        rw [parseInsert_ok_rec hp]
        exact lookup_record_none
          (fun c hcs => shapeOf_name_ne hcs (by simp [insertFavoriteSchema]))
      unfold dbInsert at hd
      split at hd
      · simp at hd
      · rename_i row hbr
        split at hd
        · split at hd
          · rename_i ht hany
            obtain ⟨r, hrmem, hrconf⟩ := List.any_eq_true.mp hany
            have hid : lookupField row "id" = some (.int st.nextId) := favoriteRow_id hrecid hbr
            obtain ⟨k, hk, hlt⟩ := fav_ids_bounded st hst r hrmem
            have hfalse : rowsConflict insertFavoriteSchema.table r row = false :=
              rowsConflict_favorites hk hid (by omega)
            rw [hfalse] at hrconf
            cases hrconf
          · cases hd
        · simp at hd
    · cases heq

/-- Witness for C7: inserting (u1, 7) into the store that already
holds a (u1, 7) favorite does not raise a uniqueness rejection. -/
theorem favorites_duplicates_permitted_witness :
    insertFavoriteOp favSt1 0 favPairPayload ≠ .error (.db .uniqueViolation) :=
  favorites_duplicates_permitted.1 favSt1
    (Reach.step Reach.empty
      (by decide : insertFavoriteOp ⟨[], 1⟩ 0 favPairPayload = .ok favSt1))
    0 favPairPayload
